import Mathlib

/-!
Verification of the K204/HH309 packet decoder (`parse_k204_packet` in
`K204_Excel_Logger.py`).  The decoder is a pure function from a raw byte
sequence (modelled as `List Nat`, one entry per byte) to an optional decoded
reading.  Python floats are modelled as rationals (`ℚ`); the only divisions
performed are by 1 and 10, so real-number division semantics are captured
exactly.  Fallible decoding is modelled with `Option`: `none` stands for the
decoder's `None` ("unrecognized frame") return.
-/

/-- A decoded per-channel value: either the over-limit sentinel `'OL'`
or a numeric temperature (Python float, modelled as `ℚ`). -/
inductive ChannelValue where
  | OL : ChannelValue
  | val (v : ℚ) : ChannelValue
deriving DecidableEq

/-- The decoder's result dictionary: `{'unit': ..., 'current_temperatures': ...}`.
The Python dict of temperatures preserves insertion order `T1..T4`, so it is
modelled as an association list in that order. -/
structure DecodedData where
  unit : String
  current_temperatures : List (String × ChannelValue)
deriving DecidableEq

/-- `get_bit(byte_val, bit_idx)` from the source:
`bool(byte_val & (1 << bit_idx))`. -/
def get_bit (byte_val bit_idx : Nat) : Bool :=
  byte_val &&& (1 <<< bit_idx) != 0

/-- A signed 16-bit big-endian integer from two bytes, as produced for each
`h` field of `struct.unpack('>hhhh', ...)`. -/
def toInt16 (hi lo : Nat) : Int :=
  let u := (hi % 256) * 256 + lo % 256
  if u < 32768 then (u : Int) else (u : Int) - 65536

/-- `struct.unpack('>hhhh', s)`: succeeds exactly when `s` consists of exactly
8 bytes, yielding four big-endian signed 16-bit integers; otherwise raises
`struct.error`, modelled as `none`. -/
def unpack_hhhh (s : List Nat) : Option (Int × Int × Int × Int) :=
  match s with
  | [a, b, c, d, e, f, g, h] => some (toInt16 a b, toInt16 c d, toInt16 e f, toInt16 g h)
  | _ => none

/-- The body of the decoder's `for i in range(4)` loop for one channel:
resolution bit selects the divisor (set → 1.0, clear → 10.0), the over-limit
bit selects the sentinel, otherwise the scaled value is stored. -/
def decode_channel (resolution_byte ol_chan_byte : Nat) (raw_i : Int) (i : Nat) : ChannelValue :=
  let bit_set := get_bit resolution_byte i
  let divisor : ℚ := if bit_set then 1 else 10
  let is_ol := get_bit ol_chan_byte i
  let v : ℚ := (raw_i : ℚ) / divisor
  if is_ol then ChannelValue.OL else ChannelValue.val v

/-- `parse_k204_packet(raw_data)` from `K204_Excel_Logger.py`:
length check, start/end marker check, unit bit from byte 1, over-limit byte 39,
resolution byte 43, four big-endian int16 channel values from bytes 7..14
(`raw_data[7:15]`), assembled into the ordered `T1..T4` mapping. -/
def parse_k204_packet (raw_data : List Nat) : Option DecodedData :=
  if raw_data.length < 45 then none
  else if raw_data.getD 0 0 ≠ 0x02 ∨ raw_data.getD 44 0 ≠ 0x03 then none
  else
    let status_byte_1 := raw_data.getD 1 0
    let unit := if get_bit status_byte_1 7 then "°C" else "°F"
    let ol_chan_byte := raw_data.getD 39 0
    let resolution_byte := raw_data.getD 43 0
    match unpack_hhhh ((raw_data.drop 7).take 8) with
    | none => none
    | some (t1, t2, t3, t4) =>
      some { unit := unit,
             current_temperatures :=
               [("T1", decode_channel resolution_byte ol_chan_byte t1 0),
                ("T2", decode_channel resolution_byte ol_chan_byte t2 1),
                ("T3", decode_channel resolution_byte ol_chan_byte t3 2),
                ("T4", decode_channel resolution_byte ol_chan_byte t4 3)] }

/-- The raw signed 16-bit big-endian integer of channel `i` (0-based):
bytes `7 + 2*i` (high) and `8 + 2*i` (low) of the frame. -/
def rawChannel (raw : List Nat) (i : Nat) : Int :=
  toInt16 (raw.getD (7 + 2 * i) 0) (raw.getD (8 + 2 * i) 0)

/-- A list with positive length splits off a head. -/
theorem exists_cons_of_len (l : List Nat) (h : 0 < l.length) :
    ∃ a t, l = a :: t := by
  cases l with
  | nil => simp at h
  | cons a t => exact ⟨a, t, rfl⟩

/-- For a frame of at least 45 bytes, the slice `raw_data[7:15]` is exactly
the 8 bytes at indices 7..14. -/
theorem slice_eq (raw : List Nat) (h : 45 ≤ raw.length) :
    (raw.drop 7).take 8 =
      [raw.getD 7 0, raw.getD 8 0, raw.getD 9 0, raw.getD 10 0,
       raw.getD 11 0, raw.getD 12 0, raw.getD 13 0, raw.getD 14 0] := by
  obtain ⟨a0, raw, rfl⟩ := exists_cons_of_len raw (by omega)
  simp only [List.length_cons] at h
  obtain ⟨a1, raw, rfl⟩ := exists_cons_of_len raw (by omega)
  simp only [List.length_cons] at h
  obtain ⟨a2, raw, rfl⟩ := exists_cons_of_len raw (by omega)
  simp only [List.length_cons] at h
  obtain ⟨a3, raw, rfl⟩ := exists_cons_of_len raw (by omega)
  simp only [List.length_cons] at h
  obtain ⟨a4, raw, rfl⟩ := exists_cons_of_len raw (by omega)
  simp only [List.length_cons] at h
  obtain ⟨a5, raw, rfl⟩ := exists_cons_of_len raw (by omega)
  simp only [List.length_cons] at h
  obtain ⟨a6, raw, rfl⟩ := exists_cons_of_len raw (by omega)
  simp only [List.length_cons] at h
  obtain ⟨a7, raw, rfl⟩ := exists_cons_of_len raw (by omega)
  simp only [List.length_cons] at h
  obtain ⟨a8, raw, rfl⟩ := exists_cons_of_len raw (by omega)
  simp only [List.length_cons] at h
  obtain ⟨a9, raw, rfl⟩ := exists_cons_of_len raw (by omega)
  simp only [List.length_cons] at h
  obtain ⟨a10, raw, rfl⟩ := exists_cons_of_len raw (by omega)
  simp only [List.length_cons] at h
  obtain ⟨a11, raw, rfl⟩ := exists_cons_of_len raw (by omega)
  simp only [List.length_cons] at h
  obtain ⟨a12, raw, rfl⟩ := exists_cons_of_len raw (by omega)
  simp only [List.length_cons] at h
  obtain ⟨a13, raw, rfl⟩ := exists_cons_of_len raw (by omega)
  simp only [List.length_cons] at h
  obtain ⟨a14, raw, rfl⟩ := exists_cons_of_len raw (by omega)
  rfl

/-- Characterization of the decoder on an accepted frame: once the length and
the two markers check out, the result is fully determined by bytes 1, 7..14,
39 and 43. -/
theorem parse_accepted (raw : List Nat) (h45 : 45 ≤ raw.length)
    (h0 : raw.getD 0 0 = 0x02) (h44 : raw.getD 44 0 = 0x03) :
    parse_k204_packet raw = some
      { unit := if get_bit (raw.getD 1 0) 7 then "°C" else "°F",
        current_temperatures :=
          [("T1", decode_channel (raw.getD 43 0) (raw.getD 39 0) (rawChannel raw 0) 0),
           ("T2", decode_channel (raw.getD 43 0) (raw.getD 39 0) (rawChannel raw 1) 1),
           ("T3", decode_channel (raw.getD 43 0) (raw.getD 39 0) (rawChannel raw 2) 2),
           ("T4", decode_channel (raw.getD 43 0) (raw.getD 39 0) (rawChannel raw 3) 3)] } := by
  have hlt : ¬ raw.length < 45 := by omega
  unfold parse_k204_packet
  rw [if_neg hlt, if_neg (by push_neg; exact ⟨h0, h44⟩), slice_eq raw h45]
  simp [unpack_hhhh, rawChannel]

/-- On input shorter than 45 bytes the decoder returns `none`. -/
theorem parse_none_short (raw : List Nat) (h : raw.length < 45) :
    parse_k204_packet raw = none := by
  unfold parse_k204_packet
  rw [if_pos h]

/-- On input of sufficient length with a wrong start or end marker the decoder
returns `none`. -/
theorem parse_none_bad_markers (raw : List Nat) (h45 : 45 ≤ raw.length)
    (hbad : raw.getD 0 0 ≠ 0x02 ∨ raw.getD 44 0 ≠ 0x03) :
    parse_k204_packet raw = none := by
  have hlt : ¬ raw.length < 45 := by omega
  unfold parse_k204_packet
  rw [if_neg hlt, if_pos hbad]

/-- A successful decode implies the frame had at least 45 bytes and correct
start and end markers. -/
theorem parse_some_shape (raw : List Nat) (d : DecodedData)
    (hp : parse_k204_packet raw = some d) :
    45 ≤ raw.length ∧ raw.getD 0 0 = 0x02 ∧ raw.getD 44 0 = 0x03 := by
  by_cases h45 : raw.length < 45
  · rw [parse_none_short raw h45] at hp
    exact Option.noConfusion hp
  · by_cases h0 : raw.getD 0 0 = 0x02
    · by_cases h44 : raw.getD 44 0 = 0x03
      · exact ⟨by omega, h0, h44⟩
      · rw [parse_none_bad_markers raw (by omega) (Or.inr h44)] at hp
        exact Option.noConfusion hp
    · rw [parse_none_bad_markers raw (by omega) (Or.inl h0)] at hp
      exact Option.noConfusion hp

/-- The 45-byte end-to-end test frame of the spec: marker `0x02`, status
`0x80`, filler, big-endian int16 channel values `[235, -50, 0, 1000]` at
bytes 7..14, over-limit byte `0b0010` at byte 39, resolution byte `0b0001`
at byte 43, end marker `0x03`. -/
def c7frame : List Nat :=
  [0x02, 0x80, 0, 0, 0, 0, 0,
   0x00, 0xEB, 0xFF, 0xCE, 0x00, 0x00, 0x03, 0xE8,
   0, 0, 0, 0, 0, 0, 0, 0, 0, 0, 0, 0, 0, 0, 0, 0, 0, 0, 0, 0, 0, 0, 0, 0,
   0b0010, 0, 0, 0, 0b0001, 0x03]

/-- What the code actually produces on `c7frame`: resolution bit 0 set gives
divisor 1 (so T1 = 235.0), over-limit bit 1 marks T2 as OL, T3 = 0/10 = 0.0,
T4 = 1000/10 = 100.0. -/
def c7out : DecodedData :=
  { unit := "°C",
    current_temperatures :=
      [("T1", ChannelValue.val 235), ("T2", ChannelValue.OL),
       ("T3", ChannelValue.val 0), ("T4", ChannelValue.val 100)] }

/-- Concrete evaluation of the decoder on the test frame. -/
theorem parse_c7 : parse_k204_packet c7frame = some c7out := by
  simp [parse_k204_packet, c7frame, c7out, unpack_hhhh, decode_channel, get_bit, toInt16]
  norm_num
  refine ⟨by decide, fun h => absurd (by decide : 2 &&& 8 = 0) h⟩

/-- C3: every byte sequence shorter than 45 bytes decodes to the
Unrecognized result `none`, and on every byte-sequence input the decoder
terminates with a normal return value (`none` or a decoded reading) —
it never raises. -/
theorem C3_short_input_unrecognized (raw : List Nat) :
    (raw.length < 45 → parse_k204_packet raw = none) ∧
    (parse_k204_packet raw = none ∨ ∃ d, parse_k204_packet raw = some d) := by
  constructor
  · intro h
    exact parse_none_short raw h
  · cases hp : parse_k204_packet raw with
    | none => exact Or.inl rfl
    | some d => exact Or.inr ⟨d, rfl⟩

/-- Witness for C3 at the empty input. -/
theorem C3_short_input_unrecognized_witness :
    parse_k204_packet [] = none :=
  (C3_short_input_unrecognized []).1 (by decide)

/-- C4: a sequence of at least 45 bytes whose byte 0 is not `0x02` or whose
byte 44 is not `0x03` decodes to the Unrecognized result `none`. -/
theorem C4_bad_markers_unrecognized (raw : List Nat) (h45 : 45 ≤ raw.length)
    (hbad : raw.getD 0 0 ≠ 0x02 ∨ raw.getD 44 0 ≠ 0x03) :
    parse_k204_packet raw = none :=
  parse_none_bad_markers raw h45 hbad

/-- Witness for C4 at a 45-byte all-zero frame (byte 0 = 0 ≠ 0x02). -/
theorem C4_bad_markers_unrecognized_witness :
    parse_k204_packet (List.replicate 45 0) = none :=
  C4_bad_markers_unrecognized (List.replicate 45 0) (by decide) (Or.inl (by decide))

/-- C5: on every accepted frame the decoded unit is Celsius (`"°C"`) exactly
when bit 7 of byte 1 is set and Fahrenheit (`"°F"`) when it is clear,
independent of channel data and of the remaining bits of byte 1. -/
theorem C5_unit_bit (raw : List Nat) (d : DecodedData)
    (hp : parse_k204_packet raw = some d) :
    (get_bit (raw.getD 1 0) 7 = true → d.unit = "°C") ∧
    (get_bit (raw.getD 1 0) 7 = false → d.unit = "°F") := by
  obtain ⟨h45, h0, h44⟩ := parse_some_shape raw d hp
  rw [parse_accepted raw h45 h0 h44] at hp
  injection hp with hp
  subst hp
  constructor <;> intro hb <;> rw [hb] <;> simp

/-- Witness for C5 on the test frame (status byte `0x80`, bit 7 set). -/
theorem C5_unit_bit_witness : c7out.unit = "°C" :=
  (C5_unit_bit c7frame c7out parse_c7).1 (by decide)

/-- C8: every successful decode yields a channel mapping with exactly the
four keys T1, T2, T3, T4 in that fixed order — no channel is ever absent. -/
theorem C8_four_channels (raw : List Nat) (d : DecodedData)
    (hp : parse_k204_packet raw = some d) :
    d.current_temperatures.map Prod.fst = ["T1", "T2", "T3", "T4"] ∧
    d.current_temperatures.length = 4 := by
  obtain ⟨h45, h0, h44⟩ := parse_some_shape raw d hp
  rw [parse_accepted raw h45 h0 h44] at hp
  injection hp with hp
  subst hp
  constructor <;> rfl

/-- Witness for C8 on the test frame. -/
theorem C8_four_channels_witness :
    c7out.current_temperatures.map Prod.fst = ["T1", "T2", "T3", "T4"] ∧
    c7out.current_temperatures.length = 4 :=
  C8_four_channels c7frame c7out parse_c7

/-- C1: on every accepted frame and channel index `i < 4` whose over-limit
bit is clear, the decoded numeric value is the raw int16 divided by 1 when
bit `i` of the resolution byte (byte 43) is set, and the raw int16 divided
by 10 (real-number division) when it is clear. -/
theorem C1_resolution_scaling (raw : List Nat) (d : DecodedData) (i : Nat)
    (hi : i < 4) (hp : parse_k204_packet raw = some d)
    (hol : get_bit (raw.getD 39 0) i = false) :
    (get_bit (raw.getD 43 0) i = true →
      (d.current_temperatures.getD i ("", ChannelValue.OL)).2
        = ChannelValue.val ((rawChannel raw i : ℚ) / 1)) ∧
    (get_bit (raw.getD 43 0) i = false →
      (d.current_temperatures.getD i ("", ChannelValue.OL)).2
        = ChannelValue.val ((rawChannel raw i : ℚ) / 10)) := by
  obtain ⟨h45, h0, h44⟩ := parse_some_shape raw d hp
  rw [parse_accepted raw h45 h0 h44] at hp
  injection hp with hp
  subst hp
  constructor <;> intro hres <;> interval_cases i <;>
    simp only [List.getD_cons_zero, List.getD_cons_succ, decode_channel] <;>
    rw [hol, hres] <;> simp

/-- Witness for C1 on the test frame, channel 0: over-limit bit clear,
resolution bit set, value = raw/1. -/
theorem C1_resolution_scaling_witness :
    (c7out.current_temperatures.getD 0 ("", ChannelValue.OL)).2
      = ChannelValue.val ((rawChannel c7frame 0 : ℚ) / 1) :=
  (C1_resolution_scaling c7frame c7out 0 (by decide) parse_c7 (by decide)).1 (by decide)

/-- C2: on every accepted frame and channel index `i < 4`, if bit `i` of the
over-limit byte (byte 39) is set the decoded value is the OL sentinel,
whatever the raw int16 content (the frame, hence the raw value, is arbitrary);
if it is clear the decoded value is the numeric scaled value. -/
theorem C2_ol_precedence (raw : List Nat) (d : DecodedData) (i : Nat)
    (hi : i < 4) (hp : parse_k204_packet raw = some d) :
    (get_bit (raw.getD 39 0) i = true →
      (d.current_temperatures.getD i ("", ChannelValue.OL)).2 = ChannelValue.OL) ∧
    (get_bit (raw.getD 39 0) i = false →
      (d.current_temperatures.getD i ("", ChannelValue.OL)).2
        = ChannelValue.val ((rawChannel raw i : ℚ) /
            (if get_bit (raw.getD 43 0) i then 1 else 10))) := by
  obtain ⟨h45, h0, h44⟩ := parse_some_shape raw d hp
  rw [parse_accepted raw h45 h0 h44] at hp
  injection hp with hp
  subst hp
  constructor <;> intro hol <;> interval_cases i <;>
    simp only [List.getD_cons_zero, List.getD_cons_succ, decode_channel] <;>
    rw [hol] <;> simp

/-- Witness for C2 on the test frame, channel 1: over-limit bit set (byte 39
is `0b0010`), decoded value is the OL sentinel even though the raw int16 is
-50. -/
theorem C2_ol_precedence_witness :
    (c7out.current_temperatures.getD 1 ("", ChannelValue.OL)).2 = ChannelValue.OL :=
  (C2_ol_precedence c7frame c7out 1 (by decide) parse_c7).1 (by decide)

/-- C6: for every frame that passed the 45-byte length check, the 4×int16
big-endian extraction from `raw_data[7:15]` succeeds (the defensive
`struct.error` branch is unreachable) and yields exactly the signed 16-bit
big-endian integers of bytes 7..14, in that byte order for channels 1..4. -/
theorem C6_raw_channel_extraction (raw : List Nat) (h45 : 45 ≤ raw.length) :
    unpack_hhhh ((raw.drop 7).take 8)
      = some (rawChannel raw 0, rawChannel raw 1, rawChannel raw 2, rawChannel raw 3) ∧
    unpack_hhhh ((raw.drop 7).take 8) ≠ none := by
  rw [slice_eq raw h45]
  constructor
  · simp [unpack_hhhh, rawChannel]
  · simp [unpack_hhhh]

/-- Witness for C6 on the test frame. -/
theorem C6_raw_channel_extraction_witness :
    unpack_hhhh ((c7frame.drop 7).take 8)
      = some (rawChannel c7frame 0, rawChannel c7frame 1,
              rawChannel c7frame 2, rawChannel c7frame 3) ∧
    unpack_hhhh ((c7frame.drop 7).take 8) ≠ none :=
  C6_raw_channel_extraction c7frame (by decide)

/-- C7 counterexample: on the spec's end-to-end frame (OL byte `0b0010`,
resolution byte `0b0001`) the decoder does NOT return T1=23.5, T2=-5.0,
T3=OL, T4=100.0.  Resolution bit 0 set means divisor 1, so T1 = 235.0, and
over-limit bit 1 marks T2 (not T3) as OL. -/
theorem C7_end_to_end_counterexample :
    parse_k204_packet c7frame ≠
      some { unit := "°C",
             current_temperatures :=
               [("T1", ChannelValue.val 23.5), ("T2", ChannelValue.val (-5)),
                ("T3", ChannelValue.OL), ("T4", ChannelValue.val 100)] } := by
  rw [parse_c7]
  intro h
  injection h with h
  have h2 := congrArg (fun d => (d.current_temperatures.getD 2 ("", ChannelValue.OL)).2) h
  simp [c7out] at h2

/-- C7 amended: on the spec's end-to-end frame the decoder returns
unit = Celsius, T1 = 235.0 (resolution bit 0 set, divisor 1),
T2 = OL (over-limit bit 1 set), T3 = 0.0, T4 = 100.0. -/
theorem C7_end_to_end :
    parse_k204_packet c7frame =
      some { unit := "°C",
             current_temperatures :=
               [("T1", ChannelValue.val 235), ("T2", ChannelValue.OL),
                ("T3", ChannelValue.val 0), ("T4", ChannelValue.val 100)] } :=
  parse_c7

/-- Channels built from bytes on which two frames agree are equal. -/
theorem rawChannel_eq_of_agree (raw1 raw2 : List Nat) (i : Nat)
    (hhi : raw1.getD (7 + 2 * i) 0 = raw2.getD (7 + 2 * i) 0)
    (hlo : raw1.getD (8 + 2 * i) 0 = raw2.getD (8 + 2 * i) 0) :
    rawChannel raw1 i = rawChannel raw2 i := by
  unfold rawChannel
  rw [hhi, hlo]

/-- C9: two frames of length 45 that agree on bytes 0, 1, 7..14, 39, 43 and
44 (and may differ arbitrarily elsewhere) decode to equal results; decoding
the same sequence twice trivially yields equal results (pure function). -/
theorem C9_reserved_byte_noninterference (raw1 raw2 : List Nat)
    (h1 : raw1.length = 45) (h2 : raw2.length = 45)
    (hag : ∀ j, j ∈ ([0, 1, 7, 8, 9, 10, 11, 12, 13, 14, 39, 43, 44] : List Nat) →
      raw1.getD j 0 = raw2.getD j 0) :
    parse_k204_packet raw1 = parse_k204_packet raw2 ∧
    parse_k204_packet raw1 = parse_k204_packet raw1 := by
  refine ⟨?_, rfl⟩
  have e0 := hag 0 (by decide)
  have e1 := hag 1 (by decide)
  have e7 := hag 7 (by decide)
  have e8 := hag 8 (by decide)
  have e9 := hag 9 (by decide)
  have e10 := hag 10 (by decide)
  have e11 := hag 11 (by decide)
  have e12 := hag 12 (by decide)
  have e13 := hag 13 (by decide)
  have e14 := hag 14 (by decide)
  have e39 := hag 39 (by decide)
  have e43 := hag 43 (by decide)
  have e44 := hag 44 (by decide)
  by_cases h0 : raw1.getD 0 0 = 0x02
  · by_cases h44m : raw1.getD 44 0 = 0x03
    · have r0 : rawChannel raw1 0 = rawChannel raw2 0 :=
        rawChannel_eq_of_agree raw1 raw2 0 e7 e8
      have r1 : rawChannel raw1 1 = rawChannel raw2 1 :=
        rawChannel_eq_of_agree raw1 raw2 1 e9 e10
      have r2 : rawChannel raw1 2 = rawChannel raw2 2 :=
        rawChannel_eq_of_agree raw1 raw2 2 e11 e12
      have r3 : rawChannel raw1 3 = rawChannel raw2 3 :=
        rawChannel_eq_of_agree raw1 raw2 3 e13 e14
      rw [parse_accepted raw1 (by omega) h0 h44m,
          parse_accepted raw2 (by omega) (e0 ▸ h0) (e44 ▸ h44m),
          e1, e39, e43, r0, r1, r2, r3]
    · rw [parse_none_bad_markers raw1 (by omega) (Or.inr h44m),
          parse_none_bad_markers raw2 (by omega) (Or.inr (e44 ▸ h44m))]
  · rw [parse_none_bad_markers raw1 (by omega) (Or.inl h0),
        parse_none_bad_markers raw2 (by omega) (Or.inl (e0 ▸ h0))]

/-- A variant of the test frame that differs from it only on reserved bytes
(bytes 2..6, 15..38 and 40..42). -/
def c9frame : List Nat :=
  [0x02, 0x80, 99, 98, 97, 96, 95,
   0x00, 0xEB, 0xFF, 0xCE, 0x00, 0x00, 0x03, 0xE8,
   7, 7, 7, 7, 7, 7, 7, 7, 7, 7, 7, 7, 7, 7, 7, 7, 7, 7, 7, 7, 7, 7, 7, 7,
   0b0010, 5, 5, 5, 0b0001, 0x03]

/-- Witness for C9 on the test frame and its reserved-byte variant. -/
theorem C9_reserved_byte_noninterference_witness :
    parse_k204_packet c7frame = parse_k204_packet c9frame ∧
    parse_k204_packet c7frame = parse_k204_packet c7frame :=
  C9_reserved_byte_noninterference c7frame c9frame (by decide) (by decide)
    (by
      intro j hj
      fin_cases hj <;> rfl)

/-- Indices below 45 read the same byte in a frame and in its 45-byte
truncation. -/
theorem getD_take_45 (raw : List Nat) (j : Nat) (hj : j < 45) :
    (raw.take 45).getD j 0 = raw.getD j 0 := by
  simp only [List.getD, List.get?_eq_getElem?]
  rw [List.getElem?_take_of_lt hj]

/-- C10: the decoder does not reject over-length input — any sequence longer
than 45 bytes with correct markers at bytes 0 and 44 decodes successfully,
to exactly the reading of its 45-byte prefix; bytes beyond index 44 never
affect the result. -/
theorem C10_overlength_prefix (raw : List Nat) (hlen : 45 < raw.length)
    (h0 : raw.getD 0 0 = 0x02) (h44 : raw.getD 44 0 = 0x03) :
    (∃ d, parse_k204_packet raw = some d) ∧
    parse_k204_packet raw = parse_k204_packet (raw.take 45) := by
  have hlen45 : (raw.take 45).length = 45 := by
    rw [List.length_take]
    omega
  have ht0 : (raw.take 45).getD 0 0 = 0x02 := (getD_take_45 raw 0 (by omega)).trans h0
  have ht44 : (raw.take 45).getD 44 0 = 0x03 := (getD_take_45 raw 44 (by omega)).trans h44
  constructor
  · exact ⟨_, parse_accepted raw (by omega) h0 h44⟩
  · have r0 : rawChannel (raw.take 45) 0 = rawChannel raw 0 :=
      rawChannel_eq_of_agree (raw.take 45) raw 0
        (getD_take_45 raw 7 (by omega)) (getD_take_45 raw 8 (by omega))
    have r1 : rawChannel (raw.take 45) 1 = rawChannel raw 1 :=
      rawChannel_eq_of_agree (raw.take 45) raw 1
        (getD_take_45 raw 9 (by omega)) (getD_take_45 raw 10 (by omega))
    have r2 : rawChannel (raw.take 45) 2 = rawChannel raw 2 :=
      rawChannel_eq_of_agree (raw.take 45) raw 2
        (getD_take_45 raw 11 (by omega)) (getD_take_45 raw 12 (by omega))
    have r3 : rawChannel (raw.take 45) 3 = rawChannel raw 3 :=
      rawChannel_eq_of_agree (raw.take 45) raw 3
        (getD_take_45 raw 13 (by omega)) (getD_take_45 raw 14 (by omega))
    rw [parse_accepted raw (by omega) h0 h44,
        parse_accepted (raw.take 45) (by omega) ht0 ht44,
        getD_take_45 raw 1 (by omega), getD_take_45 raw 39 (by omega),
        getD_take_45 raw 43 (by omega), r0, r1, r2, r3]

/-- Witness for C10 on the test frame extended by one surplus byte. -/
theorem C10_overlength_prefix_witness :
    (∃ d, parse_k204_packet (c7frame ++ [0]) = some d) ∧
    parse_k204_packet (c7frame ++ [0]) = parse_k204_packet ((c7frame ++ [0]).take 45) :=
  C10_overlength_prefix (c7frame ++ [0]) (by decide) (by decide) (by decide)
